import Mathlib

/-!
Verification development for the mp3ify repository (src/mp3ify.py).

The Python source is shallowly embedded: pure string manipulation is
translated to executable functions over `List Char` (a Python `str` is a
sequence of characters; we work with ASCII semantics for `\s`,
case-folding, and the character classes that the source's regular
expressions use), stateful filesystem code becomes explicit state passing
over an association list of paths, and external collaborators (the Spotify
client, the YouTube search and download tools) are abstracted as oracle
parameters, exactly at the interfaces the source calls them.
-/

namespace Mp3ify

/-- Python `str.strip()` / regex `\s` whitespace class, ASCII members:
space, tab, newline, carriage return, vertical tab, form feed. -/
def pyIsSpace (c : Char) : Bool :=
  c = ' ' || c = '\t' || c = '\n' || c = '\x0d' || c = Char.ofNat 11 || c = Char.ofNat 12

/-- Python truthiness of an optional string: `None` and `""` are falsy. -/
def pyTruthy (o : Option String) : Bool :=
  match o with
  | none => false
  | some s => !(s == "")

/-- Mirrors the `TrackInfo` dataclass (src/mp3ify.py lines 56-79).
All fields optional, defaulting to `None`. -/
structure TrackInfo where
  filename : Option String := none
  artist : Option String := none
  album : Option String := none
  title : Option String := none
  url : Option String := none
  youtube_url : Option String := none
  spotify_id : Option String := none
  album_art_url : Option String := none
deriving Repr, DecidableEq

/-- `TrackInfo.is_valid_for_spotify_search` (lines 115-124): `bool(self.title)`. -/
def TrackInfo.valid_for_spotify (t : TrackInfo) : Bool :=
  pyTruthy t.title

/-- `TrackInfo.is_valid_for_youtube_search` (lines 126-135):
`bool(self.title and self.artist)`. -/
def TrackInfo.valid_for_youtube (t : TrackInfo) : Bool :=
  pyTruthy t.title && pyTruthy t.artist

/-- Python `str.split(sep)` for a one-character separator: splitting the
empty string yields `[""]`, and every occurrence of the separator opens a
new (possibly empty) segment. -/
def splitOnChar (sep : Char) : List Char → List (List Char)
  | [] => [[]]
  | c :: cs =>
    let r := splitOnChar sep cs
    if c = sep then [] :: r
    else
      match r with
      | [] => [[c]]
      | h :: t => (c :: h) :: t

/-- Drop trailing Python-whitespace characters. -/
def dropTrailingWs (l : List Char) : List Char :=
  (l.reverse.dropWhile pyIsSpace).reverse

/-- Python `str.strip()`: remove whitespace from both ends. -/
def pyStrip (l : List Char) : List Char :=
  dropTrailingWs (l.dropWhile pyIsSpace)

/-- Replace underscores with spaces, as in `filepath.stem.replace("_", " ")`. -/
def underscoresToSpaces (l : List Char) : List Char :=
  l.map (fun c => if c = '_' then ' ' else c)

/-- Constants from src/mp3ify.py lines 29-37. -/
def CHUNK_SIZE : Nat := 100

def TRACK_FORMAT_PARTS_4 : Nat := 4

def TRACK_FORMAT_PARTS_3 : Nat := 3

def TRACK_FORMAT_PARTS_2 : Nat := 2

/-- Core of `_parse_track_from_filename` (lines 339-382), taking the
already underscore-normalized stem: split on the hyphen, strip each
segment, and map by segment count.  The source's `track.filename`
assignment is irrelevant to the parsed identity and left `none`. -/
def parseTrackCore (filename : List Char) : TrackInfo :=
  let parts := (splitOnChar '-' filename).map pyStrip
  let num_parts := parts.length
  if num_parts = TRACK_FORMAT_PARTS_4 then
    { artist := some (String.mk (parts.getD 1 []))
      album := some (String.mk (parts.getD 2 []))
      title := some (String.mk (parts.getD 3 [])) }
  else if num_parts = TRACK_FORMAT_PARTS_3 then
    { artist := some (String.mk (parts.getD 0 []))
      album := some (String.mk (parts.getD 1 []))
      title := some (String.mk (parts.getD 2 [])) }
  else if num_parts = TRACK_FORMAT_PARTS_2 then
    { album := some (String.mk (parts.getD 0 []))
      title := some (String.mk (parts.getD 1 [])) }
  else
    { title := some (String.mk filename) }

/-- `_parse_track_from_filename` (lines 339-382) on the filename stem. -/
def parse_track_from_filename (stem : String) : TrackInfo :=
  parseTrackCore (underscoresToSpaces stem.data)

/-- Modelled from the spec sentence for the filename parser (claim C3 and
spec section 4.1): segment-count policy written as direct pattern
matching, to be compared with the code-derived `parse_track_from_filename`. -/
def parse_filename_spec (stem : String) : TrackInfo :=
  let normalized := underscoresToSpaces stem.data
  match (splitOnChar '-' normalized).map pyStrip with
  | [_, a, b, t] =>
    { artist := some (String.mk a), album := some (String.mk b), title := some (String.mk t) }
  | [a, b, t] =>
    { artist := some (String.mk a), album := some (String.mk b), title := some (String.mk t) }
  | [b, t] =>
    { album := some (String.mk b), title := some (String.mk t) }
  | _ => { title := some (String.mk normalized) }

/-- `list_chunks` (lines 385-388) with explicit fuel; the source's
`range(0, len(lst), n)` visits each start index once, so `lst.length`
steps of fuel always suffice. -/
def list_chunksF {α : Type} : Nat → Nat → List α → List (List α)
  | _, _, [] => []
  | 0, _, _ => []
  | fuel + 1, n, l => l.take n :: list_chunksF fuel n (l.drop n)

/-- `list_chunks(lst, n)` (lines 385-388): successive n-sized chunks.
For `n = 0` the Python `range` raises `ValueError`; that unreachable case
(the only call site uses `CHUNK_SIZE = 100`) is modelled as `[]`. -/
def list_chunks {α : Type} (lst : List α) (n : Nat) : List (List α) :=
  if n = 0 then [] else list_chunksF lst.length n lst

/-- The add loop of `run_sync_to_spotify` (lines 983-991): one
`playlist_add_items` call per chunk of size `CHUNK_SIZE`; the returned
list records the batch handed to each call, in order. -/
def playlist_add_batches (urls : List String) : List (List String) :=
  list_chunks urls CHUNK_SIZE

/-- Characters removed by `re.sub(r'[<>:"/\\|?*\n\t]', "", name)`
(src/mp3ify.py line 528 and line 749). -/
def badChar (c : Char) : Bool :=
  c = '<' || c = '>' || c = ':' || c = '"' || c = '/' || c = '\\' ||
    c = '|' || c = '?' || c = '*' || c = '\n' || c = '\t'

/-- `re.sub(r"\s+", " ", name)`: collapse every maximal run of whitespace
to one space. -/
def collapseWs : List Char → List Char
  | [] => []
  | [c] => [if pyIsSpace c then ' ' else c]
  | c :: d :: cs =>
    if pyIsSpace c && pyIsSpace d then collapseWs (d :: cs)
    else (if pyIsSpace c then ' ' else c) :: collapseWs (d :: cs)

/-- Whether `.*$` (no MULTILINE, `.` excluding newline) can consume the
rest of the string from here: either the tail has no newline (all of it is
consumed, leftover `[]`), or its one newline is the final character
(`$` matches just before it, leftover `"\n"`). -/
def tailOk (t : List Char) : Option (List Char) :=
  if !(t.contains '\n') then some []
  else if t.getLast? == some '\n' && !(t.dropLast.contains '\n') then some ['\n']
  else none

/-- Scanner for `re.sub(r'\s*\|.*$', '', name)` (line 524): find the first
`|` from which `.*$` reaches the end, returning the text before it and the
leftover the anchor leaves behind. -/
def splitAtPipe : List Char → Option (List Char × List Char)
  | [] => none
  | c :: cs =>
    if c = '|' then
      match tailOk cs with
      | some leftover => some ([], leftover)
      | none => (splitAtPipe cs).map (fun pr => (c :: pr.1, pr.2))
    else (splitAtPipe cs).map (fun pr => (c :: pr.1, pr.2))

/-- `re.sub(r'\s*\|.*$', '', name)`: the leading `\s*` strips the
whitespace run immediately before the matched `|`. -/
def removePipeToEnd (cs : List Char) : List Char :=
  match splitAtPipe cs with
  | some (p, leftover) => dropTrailingWs p ++ leftover
  | none => cs

/-- Scanner for `re.sub(r'\s*//.*$', '', name)` (line 525): first `//`
from which `.*$` reaches the end. -/
def splitAtDblSlash : List Char → Option (List Char × List Char)
  | [] => none
  | c :: cs =>
    let cont := (splitAtDblSlash cs).map (fun pr => (c :: pr.1, pr.2))
    if c = '/' then
      match cs with
      | d :: ds =>
        if d = '/' then
          match tailOk ds with
          | some leftover => some ([], leftover)
          | none => cont
        else cont
      | [] => cont
    else cont

/-- `re.sub(r'\s*//.*$', '', name)`. -/
def removeDblSlashToEnd (cs : List Char) : List Char :=
  match splitAtDblSlash cs with
  | some (p, leftover) => dropTrailingWs p ++ leftover
  | none => cs

/-- For `\[.*?\]`: the lazy `.*?` reaches the first `]`, and `.` cannot
cross a newline; returns the remainder after that `]` when it exists. -/
def findClose : List Char → Option (List Char)
  | [] => none
  | c :: cs => if c = ']' then some cs else if c = '\n' then none else findClose cs

/-- One leftmost match of `\s*\[.*?\]\s*`: text before the bracket
(its trailing whitespace is the `\s*` of the match) and the remainder
after the closing `]` (whose leading whitespace the trailing `\s*`
consumes at the use site). -/
def bracketSplit : List Char → Option (List Char × List Char)
  | [] => none
  | c :: cs =>
    let cont := (bracketSplit cs).map (fun pr => (c :: pr.1, pr.2))
    if c = '[' then
      match findClose cs with
      | some rest => some ([], rest)
      | none => cont
    else cont

/-- Global `re.sub(r'\s*\[.*?\]\s*', '', name)` (line 523), with fuel;
each match removes at least the two bracket characters, so the input
length bounds the number of matches. -/
def removeBracketsF : Nat → List Char → List Char
  | 0, cs => cs
  | fuel + 1, cs =>
    match bracketSplit cs with
    | none => cs
    | some (p, rest) => dropTrailingWs p ++ removeBracketsF fuel (rest.dropWhile pyIsSpace)

/-- `re.sub(r'\s*\[.*?\]\s*', '', name)`. -/
def removeBrackets (cs : List Char) : List Char :=
  removeBracketsF cs.length cs

/-- Python `str.lower()` over ASCII, as used on filename suffixes. -/
def strToLower (s : String) : String :=
  String.mk (s.data.map Char.toLower)

/-- Case-insensitive character comparison (`re.IGNORECASE`, ASCII). -/
def lowerEq (a b : Char) : Bool :=
  a.toLower == b.toLower

/-- Case-insensitive prefix test for the literal part of the noise
patterns. -/
def isPrefixCI : List Char → List Char → Bool
  | [], _ => true
  | _ :: _, [] => false
  | k :: ks, c :: cs => lowerEq k c && isPrefixCI ks cs

/-- Index of the first `)` (the lazy `.*?\)` stops there). -/
def firstCloseIdx : List Char → Option Nat
  | [] => none
  | c :: cs => if c = ')' then some 0 else (firstCloseIdx cs).map (· + 1)

/-- Backtracking of `.*KEY.*?\)` inside the newline-free region after the
`(`: the greedy `.*` selects the last occurrence of KEY that a `)` still
follows; the result is the number of characters the group consumes. -/
def lastKeyWithClose (key : List Char) : List Char → Option Nat
  | [] => none
  | c :: rest =>
    match lastKeyWithClose key rest with
    | some n => some (n + 1)
    | none =>
      if isPrefixCI key (c :: rest) then
        match firstCloseIdx ((c :: rest).drop key.length) with
        | some q => some (key.length + q + 1)
        | none => none
      else none

/-- One leftmost match of `\s*\(.*KEY.*?\)\s*`: the first `(` from which
the inner group completes, all within the maximal newline-free region
after it. -/
def parenSplit (key : List Char) : List Char → Option (List Char × List Char)
  | [] => none
  | c :: cs =>
    let cont := (parenSplit key cs).map (fun pr => (c :: pr.1, pr.2))
    if c = '(' then
      match lastKeyWithClose key (cs.takeWhile (fun ch => ch ≠ '\n')) with
      | some n => some ([], cs.drop n)
      | none => cont
    else cont

/-- Global `re.sub(r'\s*\(.*KEY.*?\)\s*', '', name, flags=re.IGNORECASE)`
(lines 519-522), with fuel; every match removes both parentheses. -/
def removeParenF (key : List Char) : Nat → List Char → List Char
  | 0, cs => cs
  | fuel + 1, cs =>
    match parenSplit key cs with
    | none => cs
    | some (p, rest) => dropTrailingWs p ++ removeParenF key fuel (rest.dropWhile pyIsSpace)

/-- One parenthesized-noise pass of `sanitize_filename`. -/
def removeParenNoise (key : List Char) (cs : List Char) : List Char :=
  removeParenF key cs.length cs

/-- `sanitize_filename` (lines 506-540) on the character sequence: the
four case-insensitive parenthesized-noise passes, bracket removal, the
`|` and `//` suffix cuts, removal of filename-illegal characters, and
whitespace collapsing plus strip. -/
def sanitizeChars (cs : List Char) : List Char :=
  let s1 := removeParenNoise "Official Video".data cs
  let s2 := removeParenNoise "Music Video".data s1
  let s3 := removeParenNoise "Lyric Video".data s2
  let s4 := removeParenNoise "Audio".data s3
  let s5 := removeBrackets s4
  let s6 := removePipeToEnd s5
  let s7 := removeDblSlashToEnd s6
  let s8 := s7.filter (fun c => !(badChar c))
  pyStrip (collapseWs s8)

/-- `sanitize_filename` (lines 506-540). -/
def sanitize_filename (name : String) : String :=
  String.mk (sanitizeChars name.data)

/-- Python `str.strip("- ")`: remove hyphens and spaces from both ends
(line 753). -/
def stripDashSpace (l : List Char) : List Char :=
  let f := fun c => c = '-' || c = ' '
  ((l.dropWhile f).reverse.dropWhile f).reverse

/-- `_parse_youtube_title` (lines 725-756): the same regex pipeline as
`sanitize_filename` (identical patterns in identical order, lines
738-751), followed by `strip("- ")`. -/
def parse_youtube_title (raw_title : String) : String :=
  String.mk (stripDashSpace (sanitizeChars raw_title.data))

/-- The target MP3 path computed by `download_track_from_youtube`
(lines 647-652): sanitized `"<artist> - <title>"` plus `.mp3`, inside the
output directory. -/
def youtube_mp3_path (track : TrackInfo) (output_dir : String) : String :=
  output_dir ++ "/" ++ sanitize_filename ((track.artist.getD "") ++ " - " ++ (track.title.getD "")) ++ ".mp3"

/-- `download_track_from_youtube` (lines 631-722).  The filesystem is the
list of existing paths; the external `yt-dlp` invocation is an oracle
taking the filesystem to an error code and a new filesystem.  Returns the
boolean result, the resulting filesystem, and how many times the external
downloader was invoked. -/
def download_track_from_youtube (track : TrackInfo) (output_dir : String)
    (downloader : List String → Nat × List String) (fs : List String) :
    Bool × List String × Nat :=
  if !(pyTruthy track.youtube_url) || !(pyTruthy track.artist) || !(pyTruthy track.title) then
    (false, fs, 0)
  else
    if fs.contains (youtube_mp3_path track output_dir) then
      (true, fs, 0)
    else
      if (downloader fs).1 == 0
          && (downloader fs).2.contains (youtube_mp3_path track output_dir) then
        (true, (downloader fs).2, 1)
      else (false, (downloader fs).2, 1)

/-- Album object of a Spotify playlist item (`album(name, images)`,
line 414): the requested `name` field, plus the image URL list
(`album_data.get("images")`, a missing or empty list both being falsy). -/
structure SpotAlbum where
  name : String
  images : List String
deriving Repr, DecidableEq

/-- `track(id, name, artists(name), album(...))` of one playlist item
(lines 427-441); `artists` is the list of artist names, `[]` when the key
is missing or empty. -/
structure SpotTrackData where
  id : Option String := none
  name : Option String := none
  artists : List String := []
  album : Option SpotAlbum := none
deriving Repr, DecidableEq

/-- One playlist item; `item.get("track")` can be `None`. -/
structure SpotItem where
  track : Option SpotTrackData := none
deriving Repr, DecidableEq

/-- The `TrackInfo(...)` construction of `get_playlist_tracks`
(lines 436-442). -/
def trackInfoOfData (td : SpotTrackData) : TrackInfo :=
  { spotify_id := td.id
    title := td.name
    artist := match td.artists with | [] => none | a :: _ => some a
    album := td.album.map (fun al => al.name)
    album_art_url :=
      match td.album with
      | none => none
      | some al => match al.images with | [] => none | u :: _ => some u }

/-- `get_playlist_tracks` (lines 391-461).  The paginated API is
abstracted as the list of successive `items` batches; the loop stops at
the first empty batch (or at the end of the responses), and keeps exactly
the items that build a `TrackInfo` valid for YouTube search
(lines 443-447). -/
def get_playlist_tracks : List (List SpotItem) → List TrackInfo
  | [] => []
  | page :: rest =>
    if page.isEmpty then []
    else
      (page.filterMap (fun it =>
        match it.track with
        | none => none
        | some td =>
          if (trackInfoOfData td).valid_for_youtube then some (trackInfoOfData td) else none))
        ++ get_playlist_tracks rest

/-- ID3 tag container contents, as far as the source reads and writes
them through `EasyID3` / `ID3` (title, artist, album, a comment field,
and whether a front-cover `APIC` frame is present). -/
structure ID3Tags where
  title : Option String := none
  artist : Option String := none
  album : Option String := none
  comment : Option String := none
  apic : Bool := false
deriving Repr, DecidableEq

/-- A file on disk: `tags = none` models a file without an ID3 header
(the `ID3NoHeaderError` case). -/
structure MFile where
  tags : Option ID3Tags := none
deriving Repr, DecidableEq

/-- A filesystem path split as `pathlib` reads it: parent directory,
stem, and suffix. -/
structure PathP where
  dir : String
  stem : String
  ext : String
deriving Repr, DecidableEq

/-- The rendered path string. -/
def PathP.render (p : PathP) : String :=
  p.dir ++ "/" ++ p.stem ++ p.ext

/-- The filesystem: an association list from rendered paths to files. -/
def fsGet (fs : List (String × MFile)) (path : String) : Option MFile :=
  (fs.find? (fun e => e.1 == path)).map (fun e => e.2)

def fsRemove (fs : List (String × MFile)) (path : String) : List (String × MFile) :=
  fs.filter (fun e => !(e.1 == path))

def fsSet (fs : List (String × MFile)) (path : String) (f : MFile) : List (String × MFile) :=
  (path, f) :: fsRemove fs path

/-- POSIX `Path.rename`: moves the file, silently replacing any existing
file at the destination. -/
def fsRename (fs : List (String × MFile)) (old new : String) : List (String × MFile) :=
  match fsGet fs old with
  | none => fs
  | some f => fsSet (fsRemove fs old) new f

/-- The tag container of the file at `path`, when both exist. -/
def tagsAt (fs : List (String × MFile)) (path : String) : Option ID3Tags :=
  (fsGet fs path).bind (fun f => f.tags)

/-- `_write_youtube_tags` (lines 760-835): if the file is missing, do
nothing; otherwise load (or create) the tag container, set the title and
delete any album tag when the title is truthy, set the artist when
truthy, save, then embed the thumbnail as front-cover art when the
thumbnail path names an existing file with a supported extension.
Returns the filesystem and whether tags were saved. -/
def write_youtube_tags (fs : List (String × MFile)) (filepath : PathP)
    (artist : Option String) (title : Option String) (thumbnail : Option PathP) :
    List (String × MFile) × Bool :=
  match fsGet fs filepath.render with
  | none => (fs, false)
  | some file =>
    let audio := file.tags.getD {}
    let audio1 :=
      if pyTruthy title then { audio with title := title, album := none } else audio
    let audio2 :=
      if pyTruthy artist then { audio1 with artist := artist } else audio1
    let fs1 := fsSet fs filepath.render { tags := some audio2 }
    match thumbnail with
    | none => (fs1, true)
    | some tp =>
      if (fsGet fs1 tp.render).isSome then
        let ext := strToLower tp.ext
        if ext == ".jpg" || ext == ".jpeg" || ext == ".png" || ext == ".webp" then
          (fsSet fs1 filepath.render { tags := some { audio2 with apic := true } }, true)
        else (fs1, true)
      else (fs1, true)

/-- The `info_dict` fields `rename_hook` reads (lines 848-863). -/
structure YtInfo where
  filepath : Option PathP := none
  playlist_index : Option Nat := none
  title : Option String := none
  uploader : Option String := none
  channel : Option String := none
  thumbnail : Option PathP := none
deriving Repr, DecidableEq

/-- The dictionary yt-dlp passes to a postprocessor hook: a status and
the info dictionary, plus the legacy top-level `filename` fallback. -/
structure HookEvent where
  status : String
  info_dict : YtInfo := {}
  filename : Option PathP := none
deriving Repr, DecidableEq

/-- Python `a or b` over optional strings under truthiness. -/
def pyOrPath (a b : Option PathP) : Option PathP :=
  match a with
  | some x => some x
  | none => b

/-- Python `str.zfill(2)`. -/
def zfill2 (s : String) : String :=
  if s.length ≥ 2 then s else String.mk (List.replicate (2 - s.length) '0') ++ s

/-- `info_dict.get('uploader') or info_dict.get('channel') or
"Unknown Artist"` (line 863). -/
def artistGuess (i : YtInfo) : String :=
  if pyTruthy i.uploader then i.uploader.getD ""
  else if pyTruthy i.channel then i.channel.getD ""
  else "Unknown Artist"

/-- The canonical target the hook recomputes (lines 856-873): zero-padded
playlist index, artist guess and cleaned title joined with `" - "`,
sanitized, with the `.mp3` suffix, in the current file's directory. -/
def hook_target_path (i : YtInfo) (fp : PathP) : PathP :=
  let playlist_index_padded :=
    zfill2 (match i.playlist_index with
            | none => "00"
            | some n => toString n)
  let raw_title := i.title.getD fp.stem
  let cleaned_title := parse_youtube_title raw_title
  let new_stem := sanitize_filename
    (playlist_index_padded ++ " - " ++ artistGuess i ++ " - " ++ cleaned_title)
  { dir := fp.dir, stem := new_stem, ext := ".mp3" }

/-- `rename_hook` (lines 838-899): on a `finished` status with an
existing `.mp3` file, recompute the canonical name, rename unless the
name is already correct, and write corrected tags.  Rename I/O errors are
outside the model (the source file exists, so the model rename succeeds).
Returns the filesystem, the number of renames performed, and the number
of tag writes performed. -/
def rename_hook (ev : HookEvent) (fs : List (String × MFile)) :
    List (String × MFile) × Nat × Nat :=
  if !(ev.status == "finished") then (fs, 0, 0)
  else
    match pyOrPath ev.info_dict.filepath ev.filename with
    | none => (fs, 0, 0)
    | some fp =>
      if !((fsGet fs fp.render).isSome && strToLower fp.ext == ".mp3") then (fs, 0, 0)
      else
        let new_filepath := hook_target_path ev.info_dict fp
        let cleaned_title := parse_youtube_title (ev.info_dict.title.getD fp.stem)
        if fp.render == new_filepath.render then
          ((write_youtube_tags fs fp (some (artistGuess ev.info_dict))
              (some cleaned_title) ev.info_dict.thumbnail).1, 0, 1)
        else
          let fs1 := fsRename fs fp.render new_filepath.render
          ((write_youtube_tags fs1 new_filepath (some (artistGuess ev.info_dict))
              (some cleaned_title) ev.info_dict.thumbnail).1, 1, 1)

/-- The playlist id `run_sync_to_spotify` ends up with (lines 956-971):
the one found by `spotify_check_playlist`, else the one returned by
`spotify_create_playlist`. -/
def resolved_playlist (check_result create_result : Option String) : Option String :=
  match check_result with
  | some pid => some pid
  | none => create_result

/-- `run_sync_to_spotify` (lines 902-997).  Inputs: the tracks yielded by
the directory walk, the Spotify search oracle (the first result's
external URL and id, `none` on miss, missing fields, or error), and the
playlist check/create results.  Returns the exit code and the list of
batches handed to `playlist_add_items`, in order. -/
def run_sync_to_spotify (scanned : List TrackInfo)
    (search : TrackInfo → Option (String × String))
    (check_result create_result : Option String) :
    Nat × List (List String) :=
  let found := scanned.filterMap (fun t =>
    if t.valid_for_spotify then
      match search t with
      | some r => some { t with url := some r.1, spotify_id := some r.2 }
      | none => none
    else none)
  match resolved_playlist check_result create_result with
  | none => (1, [])
  | some _ =>
    let urls := found.filterMap (fun t => if pyTruthy t.url then t.url else none)
    if urls.isEmpty then (0, [])
    else (0, playlist_add_batches urls)

/-- `run_sync_from_spotify` (lines 1000-1102).  Inputs: the playlist id
argument, whether the output directory was created successfully, the
paginated playlist responses, the YouTube search oracle, and the
per-track download success oracle.  Returns the exit code. -/
def run_sync_from_spotify (playlist_id : Option String) (dir_ok : Bool)
    (pages : List (List SpotItem)) (yt : TrackInfo → Option String)
    (download : TrackInfo → Bool) : Nat :=
  if !(pyTruthy playlist_id) then 1
  else if !dir_ok then 1
  else
    let spotify_tracks := get_playlist_tracks pages
    if spotify_tracks.isEmpty then 1
    else
      let tracks_with_youtube_url := spotify_tracks.filterMap (fun t =>
        match yt t with
        | some u => some { t with youtube_url := some u }
        | none => none)
      if tracks_with_youtube_url.isEmpty then 1
      else
        let _ := tracks_with_youtube_url.countP (fun t => download t)
        0

/-- The character-removal and whitespace-normalization tail of
`sanitize_filename` (lines 527-531): remove filename-illegal characters,
collapse whitespace runs, strip. -/
def coreNormalize (cs : List Char) : List Char :=
  pyStrip (collapseWs (cs.filter (fun c => !(badChar c))))

/-- No two adjacent whitespace characters. -/
def noAdjWs (l : List Char) : Prop :=
  List.Chain' (fun a b => ¬(pyIsSpace a = true ∧ pyIsSpace b = true)) l

/-- None of the characters that can trigger the noise-stripping passes of
`sanitize_filename` (an opening parenthesis or bracket, a pipe, a slash)
occurs in the text. -/
def noiseTriggerFree (cs : List Char) : Prop :=
  '(' ∉ cs ∧ '[' ∉ cs ∧ '|' ∉ cs ∧ '/' ∉ cs

instance noiseTriggerFreeDec (cs : List Char) : Decidable (noiseTriggerFree cs) :=
  inferInstanceAs (Decidable (('(' ∉ cs) ∧ ('[' ∉ cs) ∧ ('|' ∉ cs) ∧ ('/' ∉ cs)))

/-- No two adjacent slashes. -/
def noDblSlash : List Char → Bool
  | [] => true
  | [_] => true
  | c :: d :: cs => !(c = '/' && d = '/') && noDblSlash (d :: cs)

theorem list_chunksF_join {α : Type} (n : Nat) (hn : 0 < n) :
    ∀ fuel (l : List α), l.length ≤ fuel → (list_chunksF fuel n l).flatten = l := by
  intro fuel
  induction fuel with
  | zero =>
    intro l hl
    cases l with
    | nil => rfl
    | cons c cs => simp at hl
  | succ fuel ih =>
    intro l hl
    cases l with
    | nil => rfl
    | cons c cs =>
      simp only [list_chunksF, List.flatten_cons]
      rw [ih ((c :: cs).drop n)]
      · exact List.take_append_drop n (c :: cs)
      · simp only [List.length_drop, List.length_cons]
        simp only [List.length_cons] at hl
        omega

theorem list_chunksF_sizes {α : Type} (n : Nat) :
    ∀ fuel (l : List α) c, c ∈ list_chunksF fuel n l → c.length ≤ n := by
  intro fuel
  induction fuel with
  | zero =>
    intro l c hc
    cases l <;> simp [list_chunksF] at hc
  | succ fuel ih =>
    intro l c hc
    cases l with
    | nil => simp [list_chunksF] at hc
    | cons a as =>
      simp only [list_chunksF, List.mem_cons] at hc
      rcases hc with h | h
      · subst h
        simp
      · exact ih _ _ h

/-- C3: the filename parser replaces underscores with spaces, splits on
the hyphen with each segment whitespace-trimmed, and maps by segment
count: 4 segments drop the leading track number and give artist, album,
title; 3 give artist, album, title; 2 give album, title; any other count
makes the whole space-normalized stem the title. -/
theorem claim_C3 (stem : String) : parse_track_from_filename stem = parse_filename_spec stem := by
  unfold parse_track_from_filename parseTrackCore parse_filename_spec
  generalize underscoresToSpaces stem.data = norm
  rcases hp : (splitOnChar '-' norm).map pyStrip with _ | ⟨a, _ | ⟨b, _ | ⟨c, _ | ⟨d, _ | ⟨e, rest⟩⟩⟩⟩⟩ <;>
    simp [hp, TRACK_FORMAT_PARTS_4, TRACK_FORMAT_PARTS_3, TRACK_FORMAT_PARTS_2, List.getD]

set_option maxRecDepth 20000 in
/-- C4: the playlist add operation batches the URL list into consecutive
chunks of at most 100 in original order (their concatenation is the input
list), one add-call per batch, and on 250 URLs issues exactly the batch
sizes 100, 100, 50, in that order. -/
theorem claim_C4 :
    (∀ urls : List String,
        (playlist_add_batches urls).flatten = urls
          ∧ ∀ b ∈ playlist_add_batches urls, b.length ≤ 100)
      ∧ (playlist_add_batches (List.replicate 250 "u")).map List.length = [100, 100, 50] := by
  constructor
  · intro urls
    constructor
    · unfold playlist_add_batches list_chunks CHUNK_SIZE
      simp only [if_neg (by omega : ¬(100 : Nat) = 0)]
      exact list_chunksF_join 100 (by omega) urls.length urls (Nat.le_refl _)
    · intro b hb
      unfold playlist_add_batches list_chunks CHUNK_SIZE at hb
      simp only [if_neg (by omega : ¬(100 : Nat) = 0)] at hb
      exact list_chunksF_sizes 100 _ urls b hb
  · rfl

/-- Witness for C4 at a concrete batch: the singleton list gives one
batch equal to the whole input, of size within the ceiling. -/
theorem claim_C4_witness :
    (playlist_add_batches ["u"]).flatten = ["u"] ∧ ["u"].length ≤ 100 :=
  ⟨(claim_C4.1 ["u"]).1, (claim_C4.1 ["u"]).2 ["u"] (by decide)⟩

/-- C1: when youtube_url, artist and title are all set and the target
`"<artist> - <title>".mp3` already exists in the output directory,
`download_track_from_youtube` reports success without invoking the
external downloader and leaves the filesystem unchanged; consequently a
second invocation after any successful one performs zero downloads and
adds no file. -/
theorem download_track_gate (track : TrackInfo) (output_dir : String)
    (downloader : List String → Nat × List String) (fs : List String)
    (hg : (!(pyTruthy track.youtube_url) || !(pyTruthy track.artist)
            || !(pyTruthy track.title)) = false)
    (hexists : fs.contains (youtube_mp3_path track output_dir) = true) :
    download_track_from_youtube track output_dir downloader fs = (true, fs, 0) := by
  unfold download_track_from_youtube
  rw [hg, if_neg Bool.false_ne_true, if_pos hexists]

theorem download_track_success_mem (track : TrackInfo) (output_dir : String)
    (downloader : List String → Nat × List String) (fs : List String)
    (hsucc : (download_track_from_youtube track output_dir downloader fs).1 = true) :
    (!(pyTruthy track.youtube_url) || !(pyTruthy track.artist)
        || !(pyTruthy track.title)) = false
    ∧ (download_track_from_youtube track output_dir downloader fs).2.1.contains
        (youtube_mp3_path track output_dir) = true := by
  by_cases hg :
      (!(pyTruthy track.youtube_url) || !(pyTruthy track.artist)
        || !(pyTruthy track.title)) = true
  · exfalso
    unfold download_track_from_youtube at hsucc
    rw [if_pos hg] at hsucc
    simp at hsucc
  · have hgf : (!(pyTruthy track.youtube_url) || !(pyTruthy track.artist)
        || !(pyTruthy track.title)) = false := Bool.eq_false_iff.mpr hg
    refine ⟨hgf, ?_⟩
    unfold download_track_from_youtube at hsucc ⊢
    rw [hgf, if_neg Bool.false_ne_true] at hsucc ⊢
    by_cases hc : fs.contains (youtube_mp3_path track output_dir) = true
    · rw [if_pos hc] at hsucc ⊢
      exact hc
    · rw [if_neg hc] at hsucc ⊢
      by_cases hd :
          ((downloader fs).1 == 0
            && (downloader fs).2.contains (youtube_mp3_path track output_dir)) = true
      · rw [if_pos hd] at hsucc ⊢
        exact (Bool.and_eq_true _ _ ▸ hd).2
      · rw [if_neg hd] at hsucc
        simp at hsucc

/-- C1: when youtube_url, artist and title are all set and the target
`"<artist> - <title>".mp3` already exists in the output directory,
`download_track_from_youtube` reports success without invoking the
external downloader and leaves the filesystem unchanged; consequently a
second invocation after any successful one performs zero downloads and
adds no file. -/
theorem claim_C1 :
    (∀ (track : TrackInfo) (output_dir : String)
        (downloader : List String → Nat × List String) (fs : List String),
        pyTruthy track.youtube_url = true → pyTruthy track.artist = true →
        pyTruthy track.title = true →
        fs.contains (youtube_mp3_path track output_dir) = true →
        download_track_from_youtube track output_dir downloader fs = (true, fs, 0))
    ∧ (∀ (track : TrackInfo) (output_dir : String)
        (downloader : List String → Nat × List String) (fs : List String),
        (download_track_from_youtube track output_dir downloader fs).1 = true →
        download_track_from_youtube track output_dir downloader
            (download_track_from_youtube track output_dir downloader fs).2.1
          = (true, (download_track_from_youtube track output_dir downloader fs).2.1, 0)) := by
  constructor
  · intro track output_dir downloader fs hurl hartist htitle hexists
    exact download_track_gate track output_dir downloader fs
      (by rw [hurl, hartist, htitle]; rfl) hexists
  · intro track output_dir downloader fs hsucc
    obtain ⟨hg, hmem⟩ := download_track_success_mem track output_dir downloader fs hsucc
    exact download_track_gate track output_dir downloader _ hg hmem

/-- Witness for C1: a concrete already-materialized track short-circuits
with zero downloader invocations. -/
theorem claim_C1_witness :
    pyTruthy ({ artist := some "A", title := some "T", youtube_url := some "u" } : TrackInfo).youtube_url = true
    ∧ List.contains ["d/A - T.mp3"]
        (youtube_mp3_path { artist := some "A", title := some "T", youtube_url := some "u" } "d") = true
    ∧ download_track_from_youtube
        { artist := some "A", title := some "T", youtube_url := some "u" } "d"
        (fun fs => (1, fs)) ["d/A - T.mp3"]
      = (true, ["d/A - T.mp3"], 0) :=
  ⟨by decide, by decide,
    claim_C1.1 { artist := some "A", title := some "T", youtube_url := some "u" } "d"
      (fun fs => (1, fs)) ["d/A - T.mp3"] (by decide) (by decide) (by decide) (by decide)⟩

/-- C9: every TrackInfo returned by the Spotify playlist fetch has a
truthy (non-empty) artist and title, i.e. satisfies the
valid-for-YouTube-search predicate; invalid items are filtered out at
fetch time. -/
theorem claim_C9 (pages : List (List SpotItem)) (t : TrackInfo)
    (ht : t ∈ get_playlist_tracks pages) :
    pyTruthy t.artist = true ∧ pyTruthy t.title = true
      ∧ t.valid_for_youtube = true := by
  revert ht
  induction pages with
  | nil =>
    intro ht
    simp [get_playlist_tracks] at ht
  | cons page rest ih =>
    intro ht
    simp only [get_playlist_tracks] at ht
    by_cases hp : page.isEmpty
    · rw [if_pos hp] at ht
      simp at ht
    · rw [if_neg hp] at ht
      rcases List.mem_append.mp ht with h | h
      · obtain ⟨it, _, hit⟩ := List.mem_filterMap.mp h
        cases htr : it.track with
        | none =>
          rw [htr] at hit
          simp at hit
        | some td =>
          rw [htr] at hit
          by_cases hv : (trackInfoOfData td).valid_for_youtube = true
          · simp only [if_pos hv, Option.some_inj] at hit
            subst hit
            have hv2 := hv
            unfold TrackInfo.valid_for_youtube at hv2
            rw [Bool.and_eq_true] at hv2
            exact ⟨hv2.2, hv2.1, hv⟩
          · simp only [if_neg hv] at hit
            simp at hit
      · exact ih h

/-- Witness for C9: a concrete single-page playlist whose one valid item
is returned with truthy artist and title. -/
theorem claim_C9_witness :
    pyTruthy ({ artist := some "A", title := some "T", spotify_id := some "i" } : TrackInfo).artist = true
    ∧ pyTruthy ({ artist := some "A", title := some "T", spotify_id := some "i" } : TrackInfo).title = true
    ∧ ({ artist := some "A", title := some "T", spotify_id := some "i" } : TrackInfo).valid_for_youtube = true :=
  claim_C9 [[{ track := some { id := some "i", name := some "T", artists := ["A"] } }]]
    { artist := some "A", title := some "T", spotify_id := some "i" } (by decide)

/-- C2 counterexample: the hook fires with status `finished` on the
existing MP3 `d/abc123.mp3`; the recomputed canonical target
`d/01 - U - T.mp3` already exists on disk and differs from the current
path, yet the hook still performs one rename (overwriting the target) and
one tag write, where the claim demands it skip with no rename and no tag
write. -/
theorem claim_C2_counterexample :
    (fsGet [("d/abc123.mp3", ⟨some {}⟩), ("d/01 - U - T.mp3", ⟨some {}⟩)]
        "d/01 - U - T.mp3").isSome = true
    ∧ (hook_target_path
        { filepath := some ⟨"d", "abc123", ".mp3"⟩, playlist_index := some 1,
          title := some "T", uploader := some "U" }
        ⟨"d", "abc123", ".mp3"⟩).render = "d/01 - U - T.mp3"
    ∧ ("d/01 - U - T.mp3" : String) ≠ ("d/abc123.mp3" : String)
    ∧ (rename_hook
        { status := "finished",
          info_dict := { filepath := some ⟨"d", "abc123", ".mp3"⟩, playlist_index := some 1,
                         title := some "T", uploader := some "U" } }
        [("d/abc123.mp3", ⟨some {}⟩), ("d/01 - U - T.mp3", ⟨some {}⟩)]).2 = (1, 1) := by
  decide

/-- C2 amended: on a `finished` status with an existing MP3, the hook
always performs exactly one tag write, and performs a rename exactly when
the current path differs from the recomputed canonical target — with no
regard to whether a file already exists at that target (there is no
duplicate-firing existence guard). -/
theorem claim_C2 (ev : HookEvent) (fs : List (String × MFile)) (fp : PathP)
    (hst : ev.status = "finished")
    (hfp : pyOrPath ev.info_dict.filepath ev.filename = some fp)
    (hfile : (fsGet fs fp.render).isSome = true)
    (hext : strToLower fp.ext = ".mp3") :
    (rename_hook ev fs).2.2 = 1
    ∧ (rename_hook ev fs).2.1
        = (if fp.render = (hook_target_path ev.info_dict fp).render then 0 else 1) := by
  have h1 : (!(ev.status == "finished")) = false := by
    rw [hst]
    rfl
  have hguard : (!((fsGet fs fp.render).isSome && strToLower fp.ext == ".mp3")) = false := by
    rw [hfile, hext]
    rfl
  unfold rename_hook
  rw [h1, if_neg Bool.false_ne_true, hfp]
  dsimp only
  rw [hguard, if_neg Bool.false_ne_true]
  by_cases he : fp.render = (hook_target_path ev.info_dict fp).render
  · rw [if_pos (beq_iff_eq.mpr he), if_pos he]
    exact ⟨rfl, rfl⟩
  · rw [if_neg (by simpa using he), if_neg he]
    exact ⟨rfl, rfl⟩

/-- Witness for C2 at a concrete hook event whose current name already
equals the canonical target: one tag write, zero renames. -/
theorem claim_C2_witness :
    (rename_hook
        { status := "finished",
          info_dict := { filepath := some ⟨"d", "01 - U - T", ".mp3"⟩, playlist_index := some 1,
                         title := some "T", uploader := some "U" } }
        [("d/01 - U - T.mp3", ⟨some {}⟩)]).2.2 = 1
    ∧ (rename_hook
        { status := "finished",
          info_dict := { filepath := some ⟨"d", "01 - U - T", ".mp3"⟩, playlist_index := some 1,
                         title := some "T", uploader := some "U" } }
        [("d/01 - U - T.mp3", ⟨some {}⟩)]).2.1
        = (if ("d/01 - U - T.mp3" : String)
              = (hook_target_path
                  { filepath := some ⟨"d", "01 - U - T", ".mp3"⟩, playlist_index := some 1,
                    title := some "T", uploader := some "U" }
                  ⟨"d", "01 - U - T", ".mp3"⟩).render then 0 else 1) :=
  claim_C2
    { status := "finished",
      info_dict := { filepath := some ⟨"d", "01 - U - T", ".mp3"⟩, playlist_index := some 1,
                     title := some "T", uploader := some "U" } }
    [("d/01 - U - T.mp3", ⟨some {}⟩)] ⟨"d", "01 - U - T", ".mp3"⟩
    rfl (by decide) (by decide) (by decide)

/-- C5 counterexample: a `from-spotify` run with a valid playlist id and
a usable output directory whose playlist fetch returns no tracks — the
flow completes having found nothing to do, and the claim demands exit
code 0, but the code returns 1 (lines 1035-1037). -/
theorem claim_C5_counterexample :
    run_sync_from_spotify (some "P") true [] (fun _ => none) (fun _ => false) = 1
    ∧ run_sync_from_spotify (some "P") true [] (fun _ => none) (fun _ => false) ≠ 0 := by
  constructor
  · rfl
  · intro h
    simp [run_sync_from_spotify, pyTruthy, get_playlist_tracks] at h

/-- C5 amended: `to-spotify` does exit 0 when it completes and finds
nothing to add — whether the scan was empty or every scanned file went
unmatched — but `from-spotify` exits 1, not 0, both when the playlist
fetch yields no downloadable tracks and when no track resolves to a
YouTube URL; exit code 1 otherwise covers the fatal precondition
failures: a missing (falsy) playlist id, an inaccessible output
directory, and a failed playlist lookup/creation. -/
theorem claim_C5 :
    (∀ (scanned : List TrackInfo) (search : TrackInfo → Option (String × String))
        (chk cr : Option String) (pid : String),
        resolved_playlist chk cr = some pid →
        (∀ t ∈ scanned, search t = none) →
        run_sync_to_spotify scanned search chk cr = (0, []))
    ∧ (∀ (playlist_id : Option String) (yt : TrackInfo → Option String)
          (download : TrackInfo → Bool) (pages : List (List SpotItem)),
        pyTruthy playlist_id = true →
        get_playlist_tracks pages = [] →
        run_sync_from_spotify playlist_id true pages yt download = 1)
    ∧ (∀ (playlist_id : Option String) (yt : TrackInfo → Option String)
          (download : TrackInfo → Bool) (pages : List (List SpotItem)),
        pyTruthy playlist_id = true →
        (∀ t, yt t = none) →
        run_sync_from_spotify playlist_id true pages yt download = 1)
    ∧ (∀ (playlist_id : Option String) (dir_ok : Bool)
          (yt : TrackInfo → Option String) (download : TrackInfo → Bool)
          (pages : List (List SpotItem)),
        pyTruthy playlist_id = false →
        run_sync_from_spotify playlist_id dir_ok pages yt download = 1)
    ∧ (∀ (playlist_id : Option String) (yt : TrackInfo → Option String)
          (download : TrackInfo → Bool) (pages : List (List SpotItem)),
        run_sync_from_spotify playlist_id false pages yt download = 1)
    ∧ (∀ (scanned : List TrackInfo) (search : TrackInfo → Option (String × String))
        (chk cr : Option String),
        resolved_playlist chk cr = none →
        run_sync_to_spotify scanned search chk cr = (1, [])) := by
  refine ⟨?_, ?_, ?_, ?_, ?_, ?_⟩
  · intro scanned search chk cr pid hres hmiss
    have hfound : scanned.filterMap (fun t =>
        if t.valid_for_spotify then
          match search t with
          | some r => some { t with url := some r.1, spotify_id := some r.2 }
          | none => none
        else none) = ([] : List TrackInfo) := by
      rw [List.filterMap_eq_nil_iff]
      intro a ha
      cases hv : a.valid_for_spotify
      · simp [hv]
      · simp [hv, hmiss a ha]
    unfold run_sync_to_spotify
    rw [hfound, hres]
    rfl
  · intro playlist_id yt download pages hpid hempty
    unfold run_sync_from_spotify
    rw [hpid, hempty]
    rfl
  · intro playlist_id yt download pages hpid hyt
    unfold run_sync_from_spotify
    rw [hpid]
    cases hg : get_playlist_tracks pages with
    | nil => rfl
    | cons t ts =>
      have hfm : (t :: ts).filterMap (fun t =>
          match yt t with
          | some u => some { t with youtube_url := some u }
          | none => none) = ([] : List TrackInfo) := by
        rw [List.filterMap_eq_nil_iff]
        intro a _
        rw [hyt a]
      simp only [Bool.not_true, Bool.false_eq_true, if_false, hfm]
      rfl
  · intro playlist_id dir_ok yt download pages hpid
    unfold run_sync_from_spotify
    rw [hpid]
    rfl
  · intro playlist_id yt download pages
    unfold run_sync_from_spotify
    cases hp : pyTruthy playlist_id <;> rfl
  · intro scanned search chk cr hres
    unfold run_sync_to_spotify
    rw [hres]

/-- Witness for C5 at concrete inputs: a scanned-but-unmatched run exits
0 on `to-spotify`; an empty playlist, an all-miss YouTube search, a
missing playlist id, and a failed output directory each exit 1 on
`from-spotify`; a failed playlist lookup/creation exits 1 on
`to-spotify`. -/
theorem claim_C5_witness :
    run_sync_to_spotify [{ artist := some "A", title := some "T" }]
        (fun _ => none) (some "pl") none = (0, [])
    ∧ run_sync_from_spotify (some "P") true [[]] (fun _ => none) (fun _ => false) = 1
    ∧ run_sync_from_spotify (some "Q") true
        [[{ track := some { id := some "i", name := some "T", artists := ["A"] } }]]
        (fun _ => none) (fun _ => false) = 1
    ∧ run_sync_from_spotify none true [[]] (fun _ => none) (fun _ => false) = 1
    ∧ run_sync_from_spotify (some "R") false [[]] (fun _ => none) (fun _ => false) = 1
    ∧ run_sync_to_spotify [] (fun _ => none) none none = (1, []) :=
  ⟨claim_C5.1 [{ artist := some "A", title := some "T" }] (fun _ => none)
      (some "pl") none "pl" rfl (fun _ _ => rfl),
    claim_C5.2.1 (some "P") (fun _ => none) (fun _ => false) [[]] (by decide) rfl,
    claim_C5.2.2.1 (some "Q") (fun _ => none) (fun _ => false)
      [[{ track := some { id := some "i", name := some "T", artists := ["A"] } }]]
      (by decide) (fun _ => rfl),
    claim_C5.2.2.2.1 none true (fun _ => none) (fun _ => false) [[]] rfl,
    claim_C5.2.2.2.2.1 (some "R") (fun _ => none) (fun _ => false) [[]],
    claim_C5.2.2.2.2.2 [] (fun _ => none) none none rfl⟩

theorem fsGet_fsSet (fs : List (String × MFile)) (p : String) (f : MFile) :
    fsGet (fsSet fs p f) p = some f := by
  unfold fsGet fsSet fsRemove
  rw [List.find?_cons_of_pos]
  · rfl
  · simp

/-- What one `_write_youtube_tags` call does to the tag container of an
existing file: title and album follow the truthy-title branch, artist
follows the truthy-artist branch, and the comment field is never
touched. -/
theorem write_youtube_tags_spec (fs : List (String × MFile)) (fp : PathP)
    (a t : Option String) (thumb : Option PathP) (file : MFile)
    (hfile : fsGet fs fp.render = some file) :
    (tagsAt (write_youtube_tags fs fp a t thumb).1 fp.render).map (fun tg => tg.title)
        = some (if pyTruthy t then t else (file.tags.getD {}).title)
    ∧ (tagsAt (write_youtube_tags fs fp a t thumb).1 fp.render).map (fun tg => tg.album)
        = some (if pyTruthy t then none else (file.tags.getD {}).album)
    ∧ (tagsAt (write_youtube_tags fs fp a t thumb).1 fp.render).map (fun tg => tg.artist)
        = some (if pyTruthy a then a else (file.tags.getD {}).artist)
    ∧ (tagsAt (write_youtube_tags fs fp a t thumb).1 fp.render).map (fun tg => tg.comment)
        = some (file.tags.getD {}).comment := by
  unfold write_youtube_tags tagsAt
  rw [hfile]
  dsimp only
  cases thumb with
  | none =>
    dsimp only
    repeat' split
    all_goals rw [fsGet_fsSet]
    all_goals refine ⟨?_, ?_, ?_, ?_⟩
    all_goals simp [*]
  | some tp =>
    dsimp only
    repeat' split
    all_goals rw [fsGet_fsSet]
    all_goals refine ⟨?_, ?_, ?_, ?_⟩
    all_goals simp [*]

/-- C8 counterexample: after a tag-correction run on a concrete
downloaded file (source URL `https://yt/x` nowhere passed to the tag
writer), the container holds the corrected title and artist but its
comment field is `none` — not the original source URL the claim
requires. -/
theorem claim_C8_counterexample :
    tagsAt (write_youtube_tags [("d/x.mp3", ⟨some {}⟩)] ⟨"d", "x", ".mp3"⟩
        (some "UploaderName") (some "Cleaned Title") none).1 "d/x.mp3"
      = some { title := some "Cleaned Title", artist := some "UploaderName",
               album := none, comment := none, apic := false }
    ∧ (some { title := some "Cleaned Title", artist := some "UploaderName",
              album := none, comment := none, apic := false } : Option ID3Tags).map
          (fun tg => tg.comment)
        ≠ some (some "https://yt/x") := by
  decide

/-- C8 amended: after the tag-correction step on an existing file with a
truthy title and artist, the container holds the overwritten title and
artist, but no comment field is written — the comment is left exactly as
it was, and the source URL is not recorded anywhere. -/
theorem claim_C8 (fs : List (String × MFile)) (fp : PathP)
    (a t : Option String) (thumb : Option PathP) (file : MFile)
    (hfile : fsGet fs fp.render = some file)
    (ht : pyTruthy t = true) (ha : pyTruthy a = true) :
    (tagsAt (write_youtube_tags fs fp a t thumb).1 fp.render).map (fun tg => tg.title)
        = some t
    ∧ (tagsAt (write_youtube_tags fs fp a t thumb).1 fp.render).map (fun tg => tg.artist)
        = some a
    ∧ (tagsAt (write_youtube_tags fs fp a t thumb).1 fp.render).map (fun tg => tg.comment)
        = some (file.tags.getD {}).comment := by
  obtain ⟨h1, _, h3, h4⟩ := write_youtube_tags_spec fs fp a t thumb file hfile
  rw [ht] at h1
  rw [ha] at h3
  exact ⟨by simpa using h1, by simpa using h3, h4⟩

/-- Witness for C8 at a concrete file whose container already carries a
comment: title and artist are overwritten, the comment survives
unchanged. -/
theorem claim_C8_witness :
    (tagsAt (write_youtube_tags [("d/y.mp3", ⟨some { comment := some "old" }⟩)]
        ⟨"d", "y", ".mp3"⟩ (some "A") (some "T") none).1 "d/y.mp3").map (fun tg => tg.title)
      = some (some "T")
    ∧ (tagsAt (write_youtube_tags [("d/y.mp3", ⟨some { comment := some "old" }⟩)]
        ⟨"d", "y", ".mp3"⟩ (some "A") (some "T") none).1 "d/y.mp3").map (fun tg => tg.artist)
      = some (some "A")
    ∧ (tagsAt (write_youtube_tags [("d/y.mp3", ⟨some { comment := some "old" }⟩)]
        ⟨"d", "y", ".mp3"⟩ (some "A") (some "T") none).1 "d/y.mp3").map (fun tg => tg.comment)
      = some ((⟨some { comment := some "old" }⟩ : MFile).tags.getD {}).comment :=
  claim_C8 [("d/y.mp3", ⟨some { comment := some "old" }⟩)] ⟨"d", "y", ".mp3"⟩
    (some "A") (some "T") none ⟨some { comment := some "old" }⟩ (by decide) (by decide) (by decide)

/-- C10 counterexample: the title argument `some ""` is non-None — and
reachable, since the title cleaner reduces `"[Official]"` to the empty
string — yet the source's `if title:` guard (line 786) is false on the
empty string, so the writer neither sets the title nor deletes the
album: the previously embedded album value `"Old"` is retained, where
the claim demands its deletion for every non-None title. -/
theorem claim_C10_counterexample :
    ((some "" : Option String) ≠ none)
    ∧ parse_youtube_title "[Official]" = ""
    ∧ tagsAt (write_youtube_tags [("d/e.mp3", ⟨some { album := some "Old" }⟩)]
        ⟨"d", "e", ".mp3"⟩ (some "A") (some "") none).1 "d/e.mp3"
      = some { title := none, artist := some "A", album := some "Old",
               comment := none, apic := false } := by
  decide

/-- C10 amended: the album deletion is guarded by Python truthiness, not
mere non-None-ness: with a truthy (non-None and non-empty) title on an
existing file, the album tag is deleted and the title set; with the
empty-string title — non-None — the writer skips both the title write
and the album deletion, so a previously embedded album value is
retained. -/
theorem claim_C10 :
    (∀ (fs : List (String × MFile)) (fp : PathP) (a t : Option String)
        (thumb : Option PathP) (file : MFile) (oldAlbum : String),
        fsGet fs fp.render = some file →
        pyTruthy t = true →
        (file.tags.getD {}).album = some oldAlbum →
        (tagsAt (write_youtube_tags fs fp a t thumb).1 fp.render).map (fun tg => tg.album)
            = some none
        ∧ (tagsAt (write_youtube_tags fs fp a t thumb).1 fp.render).map (fun tg => tg.title)
            = some t)
    ∧ (∀ (fs : List (String × MFile)) (fp : PathP) (a : Option String)
        (thumb : Option PathP) (file : MFile) (oldAlbum : String),
        fsGet fs fp.render = some file →
        (file.tags.getD {}).album = some oldAlbum →
        (tagsAt (write_youtube_tags fs fp a (some "") thumb).1 fp.render).map (fun tg => tg.album)
            = some (some oldAlbum)
        ∧ (tagsAt (write_youtube_tags fs fp a (some "") thumb).1 fp.render).map (fun tg => tg.title)
            = some (file.tags.getD {}).title) := by
  constructor
  · intro fs fp a t thumb file oldAlbum hfile ht halbum
    obtain ⟨h1, h2, _, _⟩ := write_youtube_tags_spec fs fp a t thumb file hfile
    rw [ht] at h1 h2
    exact ⟨by simpa using h2, by simpa using h1⟩
  · intro fs fp a thumb file oldAlbum hfile halbum
    obtain ⟨h1, h2, _, _⟩ := write_youtube_tags_spec fs fp a (some "") thumb file hfile
    have hf : pyTruthy (some "") = false := rfl
    rw [hf] at h1 h2
    rw [halbum] at h2
    exact ⟨by simpa using h2, by simpa using h1⟩

/-- Witness for C10: a concrete file with an embedded album value loses
it when the writer gets a truthy title, and keeps it when the writer
gets the empty-string title. -/
theorem claim_C10_witness :
    ((tagsAt (write_youtube_tags [("d/z.mp3", ⟨some { album := some "Old Album" }⟩)]
        ⟨"d", "z", ".mp3"⟩ (some "A") (some "T") none).1 "d/z.mp3").map (fun tg => tg.album)
      = some none
    ∧ (tagsAt (write_youtube_tags [("d/z.mp3", ⟨some { album := some "Old Album" }⟩)]
        ⟨"d", "z", ".mp3"⟩ (some "A") (some "T") none).1 "d/z.mp3").map (fun tg => tg.title)
      = some (some "T"))
    ∧ ((tagsAt (write_youtube_tags [("d/w.mp3", ⟨some { album := some "Keep" }⟩)]
        ⟨"d", "w", ".mp3"⟩ (some "A") (some "") none).1 "d/w.mp3").map (fun tg => tg.album)
      = some (some "Keep")
    ∧ (tagsAt (write_youtube_tags [("d/w.mp3", ⟨some { album := some "Keep" }⟩)]
        ⟨"d", "w", ".mp3"⟩ (some "A") (some "") none).1 "d/w.mp3").map (fun tg => tg.title)
      = some ((⟨some { album := some "Keep" }⟩ : MFile).tags.getD {}).title) :=
  ⟨claim_C10.1 [("d/z.mp3", ⟨some { album := some "Old Album" }⟩)] ⟨"d", "z", ".mp3"⟩
      (some "A") (some "T") none ⟨some { album := some "Old Album" }⟩ "Old Album"
      (by decide) (by decide) (by decide),
    claim_C10.2 [("d/w.mp3", ⟨some { album := some "Keep" }⟩)] ⟨"d", "w", ".mp3"⟩
      (some "A") none ⟨some { album := some "Keep" }⟩ "Keep"
      (by decide) (by decide)⟩

theorem head?_dropWhile_not (p : Char → Bool) :
    ∀ (l : List Char) (c : Char), (l.dropWhile p).head? = some c → p c = false := by
  intro l
  induction l with
  | nil =>
    intro c hc
    simp at hc
  | cons a as ih =>
    intro c hc
    rw [List.dropWhile_cons] at hc
    by_cases hp : p a = true
    · rw [if_pos hp] at hc
      exact ih c hc
    · rw [if_neg hp] at hc
      obtain rfl : a = c := by simpa using hc
      exact Bool.eq_false_iff.mpr hp

theorem dropWhile_eq_self_of_head (p : Char → Bool) (l : List Char)
    (h : ∀ c, l.head? = some c → p c = false) : l.dropWhile p = l := by
  cases l with
  | nil => rfl
  | cons a as =>
    rw [List.dropWhile_cons, if_neg]
    simp [h a rfl]

theorem dropTrailingWs_prefixOf (l : List Char) : dropTrailingWs l <+: l := by
  have h := List.reverse_prefix.mpr (List.dropWhile_suffix (l := l.reverse) pyIsSpace)
  rwa [List.reverse_reverse] at h

theorem mem_dropTrailingWs (l : List Char) (c : Char) (hc : c ∈ dropTrailingWs l) : c ∈ l :=
  (dropTrailingWs_prefixOf l).sublist.subset hc

theorem getLast?_dropTrailingWs (l : List Char) (c : Char)
    (h : (dropTrailingWs l).getLast? = some c) : pyIsSpace c = false := by
  unfold dropTrailingWs at h
  rw [List.getLast?_reverse] at h
  exact head?_dropWhile_not pyIsSpace l.reverse c h

theorem dropTrailingWs_eq_self (l : List Char)
    (h : ∀ c, l.getLast? = some c → pyIsSpace c = false) : dropTrailingWs l = l := by
  have h2 : l.reverse.dropWhile pyIsSpace = l.reverse :=
    dropWhile_eq_self_of_head _ _ (fun c hc => h c (by rwa [List.head?_reverse] at hc))
  unfold dropTrailingWs
  rw [h2, List.reverse_reverse]

theorem head?_eq_of_prefix {l₁ l₂ : List Char} (h : l₁ <+: l₂) (hne : l₁ ≠ []) :
    l₂.head? = l₁.head? := by
  obtain ⟨t, rfl⟩ := h
  cases l₁ with
  | nil => exact absurd rfl hne
  | cons a as => rfl

theorem collapseWs_sound : ∀ (l : List Char) (c : Char),
    c ∈ collapseWs l → c = ' ' ∨ c ∈ l := by
  intro l
  induction l with
  | nil =>
    intro c hc
    simp [collapseWs] at hc
  | cons a as ih =>
    cases as with
    | nil =>
      intro c hc
      simp only [collapseWs, List.mem_singleton] at hc
      by_cases hsp : pyIsSpace a = true
      · rw [if_pos hsp] at hc
        exact Or.inl hc
      · rw [if_neg hsp] at hc
        exact Or.inr (hc ▸ List.mem_cons_self a [])
    | cons b bs =>
      intro c hc
      simp only [collapseWs] at hc
      by_cases h2 : (pyIsSpace a && pyIsSpace b) = true
      · rw [if_pos h2] at hc
        rcases ih c hc with h | h
        · exact Or.inl h
        · exact Or.inr (List.mem_cons_of_mem a h)
      · rw [if_neg h2] at hc
        rcases List.mem_cons.mp hc with h | h
        · by_cases hsp : pyIsSpace a = true
          · rw [if_pos hsp] at h
            exact Or.inl h
          · rw [if_neg hsp] at h
            exact Or.inr (h ▸ List.mem_cons_self a (b :: bs))
        · rcases ih c h with h3 | h3
          · exact Or.inl h3
          · exact Or.inr (List.mem_cons_of_mem a h3)

theorem collapseWs_ws_space : ∀ (l : List Char) (c : Char),
    c ∈ collapseWs l → pyIsSpace c = true → c = ' ' := by
  intro l
  induction l with
  | nil =>
    intro c hc
    simp [collapseWs] at hc
  | cons a as ih =>
    cases as with
    | nil =>
      intro c hc hw
      simp only [collapseWs, List.mem_singleton] at hc
      by_cases hsp : pyIsSpace a = true
      · rw [if_pos hsp] at hc
        exact hc
      · rw [if_neg hsp] at hc
        rw [hc] at hw
        exact absurd hw (by simp [hsp])
    | cons b bs =>
      intro c hc hw
      simp only [collapseWs] at hc
      by_cases h2 : (pyIsSpace a && pyIsSpace b) = true
      · rw [if_pos h2] at hc
        exact ih c hc hw
      · rw [if_neg h2] at hc
        rcases List.mem_cons.mp hc with h | h
        · by_cases hsp : pyIsSpace a = true
          · rw [if_pos hsp] at h
            exact h
          · rw [if_neg hsp] at h
            rw [h] at hw
            exact absurd hw (by simp [hsp])
        · exact ih c h hw

theorem collapseWs_head : ∀ (bs : List Char) (b : Char),
    ∃ t, collapseWs (b :: bs) = (if pyIsSpace b then ' ' else b) :: t := by
  intro bs
  induction bs with
  | nil =>
    intro b
    exact ⟨[], by simp [collapseWs]⟩
  | cons e es ih =>
    intro b
    by_cases h2 : (pyIsSpace b && pyIsSpace e) = true
    · obtain ⟨t, ht⟩ := ih e
      have hb : pyIsSpace b = true := ((Bool.and_eq_true _ _).mp h2).1
      have he : pyIsSpace e = true := ((Bool.and_eq_true _ _).mp h2).2
      refine ⟨t, ?_⟩
      simp only [collapseWs, if_pos h2]
      rw [ht, if_pos he, if_pos hb]
    · exact ⟨collapseWs (e :: es), by simp only [collapseWs, if_neg h2]⟩

theorem noAdjWs_collapseWs : ∀ l : List Char, noAdjWs (collapseWs l) := by
  intro l
  induction l with
  | nil => simp [collapseWs, noAdjWs]
  | cons a as ih =>
    cases as with
    | nil =>
      simp only [collapseWs, noAdjWs]
      exact List.chain'_singleton _
    | cons b bs =>
      by_cases h2 : (pyIsSpace a && pyIsSpace b) = true
      · simp only [collapseWs, if_pos h2]
        exact ih
      · obtain ⟨t, ht⟩ := collapseWs_head bs b
        simp only [collapseWs, if_neg h2]
        unfold noAdjWs
        rw [ht, List.chain'_cons]
        constructor
        · by_cases ha : pyIsSpace a = true
          · have hb : pyIsSpace b = false := by
              cases hB : pyIsSpace b
              · rfl
              · exact absurd (by rw [ha, hB]; rfl) h2
            simp [ha, hb]
          · simp [ha]
        · rw [← ht]
          exact ih

theorem collapseWs_eq_self : ∀ l : List Char,
    (∀ c ∈ l, pyIsSpace c = true → c = ' ') → noAdjWs l → collapseWs l = l := by
  intro l
  induction l with
  | nil =>
    intro _ _
    rfl
  | cons a as ih =>
    cases as with
    | nil =>
      intro hsp _
      simp only [collapseWs]
      by_cases ha : pyIsSpace a = true
      · rw [if_pos ha, hsp a (by simp) ha]
      · rw [if_neg ha]
    | cons b bs =>
      intro hsp hadj
      unfold noAdjWs at hadj
      rw [List.chain'_cons] at hadj
      have h2 : (pyIsSpace a && pyIsSpace b) = false := by
        cases hA : pyIsSpace a
        · rfl
        · cases hB : pyIsSpace b
          · rfl
          · exact absurd ⟨hA, hB⟩ hadj.1
      simp only [collapseWs, h2, Bool.false_eq_true, if_false]
      congr 1
      · by_cases ha : pyIsSpace a = true
        · rw [if_pos ha, hsp a (by simp) ha]
        · rw [if_neg ha]
      · exact ih (fun c hc hw => hsp c (List.mem_cons_of_mem a hc) hw) hadj.2

theorem mem_coreNormalize (cs : List Char) (c : Char) (hc : c ∈ coreNormalize cs) :
    c = ' ' ∨ c ∈ cs := by
  unfold coreNormalize pyStrip at hc
  have h1 := mem_dropTrailingWs _ _ hc
  have h2 := (List.dropWhile_suffix pyIsSpace).sublist.subset h1
  rcases collapseWs_sound _ _ h2 with h | h
  · exact Or.inl h
  · exact Or.inr (List.mem_of_mem_filter h)

theorem coreNormalize_ws_space (cs : List Char) (c : Char)
    (hc : c ∈ coreNormalize cs) (hw : pyIsSpace c = true) : c = ' ' := by
  unfold coreNormalize pyStrip at hc
  have h1 := mem_dropTrailingWs _ _ hc
  have h2 := (List.dropWhile_suffix pyIsSpace).sublist.subset h1
  exact collapseWs_ws_space _ _ h2 hw

theorem coreNormalize_not_bad (cs : List Char) (c : Char)
    (hc : c ∈ coreNormalize cs) : badChar c = false := by
  unfold coreNormalize pyStrip at hc
  have h1 := mem_dropTrailingWs _ _ hc
  have h2 := (List.dropWhile_suffix pyIsSpace).sublist.subset h1
  rcases collapseWs_sound _ _ h2 with h | h
  · rw [h]
    rfl
  · have := List.of_mem_filter h
    simpa using this

theorem noAdjWs_coreNormalize (cs : List Char) : noAdjWs (coreNormalize cs) := by
  unfold coreNormalize pyStrip
  exact List.Chain'.prefix
    ((noAdjWs_collapseWs _).suffix (List.dropWhile_suffix pyIsSpace))
    (dropTrailingWs_prefixOf _)

theorem coreNormalize_idem (cs : List Char) :
    coreNormalize (coreNormalize cs) = coreNormalize cs := by
  have hfil : (coreNormalize cs).filter (fun c => !(badChar c)) = coreNormalize cs := by
    apply List.filter_eq_self.mpr
    intro c hc
    simp [coreNormalize_not_bad cs c hc]
  have hcol : collapseWs (coreNormalize cs) = coreNormalize cs :=
    collapseWs_eq_self _ (fun c hc hw => coreNormalize_ws_space cs c hc hw)
      (noAdjWs_coreNormalize cs)
  have hstrip : pyStrip (coreNormalize cs) = coreNormalize cs := by
    by_cases hne : coreNormalize cs = []
    · rw [hne]
      rfl
    · have hhead : ∀ c, (coreNormalize cs).head? = some c → pyIsSpace c = false := by
        intro c hc
        have hpre := dropTrailingWs_prefixOf
          ((collapseWs ((cs.filter fun c => !(badChar c)))).dropWhile pyIsSpace)
        have hh := head?_eq_of_prefix hpre hne
        exact head?_dropWhile_not pyIsSpace _ c (by rw [hh]; exact hc)
      have hlast : ∀ c, (coreNormalize cs).getLast? = some c → pyIsSpace c = false := by
        intro c hc
        exact getLast?_dropTrailingWs
          ((collapseWs ((cs.filter fun c => !(badChar c)))).dropWhile pyIsSpace) c hc
      unfold pyStrip
      rw [dropWhile_eq_self_of_head pyIsSpace (coreNormalize cs) hhead,
        dropTrailingWs_eq_self (coreNormalize cs) hlast]
  calc coreNormalize (coreNormalize cs)
      = pyStrip (collapseWs ((coreNormalize cs).filter (fun c => !(badChar c)))) := rfl
    _ = pyStrip (collapseWs (coreNormalize cs)) := by rw [hfil]
    _ = pyStrip (coreNormalize cs) := by rw [hcol]
    _ = coreNormalize cs := hstrip

theorem parenSplit_eq_none (key : List Char) :
    ∀ cs : List Char, '(' ∉ cs → parenSplit key cs = none := by
  intro cs
  induction cs with
  | nil =>
    intro _
    rfl
  | cons c cs ih =>
    intro h
    have hc : ¬(c = '(') := fun he => h (he ▸ List.mem_cons_self c cs)
    simp only [parenSplit]
    rw [if_neg hc, ih (fun hm => h (List.mem_cons_of_mem c hm))]
    rfl

theorem bracketSplit_eq_none :
    ∀ cs : List Char, '[' ∉ cs → bracketSplit cs = none := by
  intro cs
  induction cs with
  | nil =>
    intro _
    rfl
  | cons c cs ih =>
    intro h
    have hc : ¬(c = '[') := fun he => h (he ▸ List.mem_cons_self c cs)
    simp only [bracketSplit]
    rw [if_neg hc, ih (fun hm => h (List.mem_cons_of_mem c hm))]
    rfl

theorem splitAtPipe_eq_none :
    ∀ cs : List Char, '|' ∉ cs → splitAtPipe cs = none := by
  intro cs
  induction cs with
  | nil =>
    intro _
    rfl
  | cons c cs ih =>
    intro h
    have hc : ¬(c = '|') := fun he => h (he ▸ List.mem_cons_self c cs)
    simp only [splitAtPipe]
    rw [if_neg hc, ih (fun hm => h (List.mem_cons_of_mem c hm))]
    rfl

theorem splitAtDblSlash_eq_none :
    ∀ cs : List Char, '/' ∉ cs → splitAtDblSlash cs = none := by
  intro cs
  induction cs with
  | nil =>
    intro _
    rfl
  | cons c cs ih =>
    intro h
    have hc : ¬(c = '/') := fun he => h (he ▸ List.mem_cons_self c cs)
    simp only [splitAtDblSlash]
    rw [if_neg hc, ih (fun hm => h (List.mem_cons_of_mem c hm))]
    rfl

theorem removeParenNoise_eq_self (key cs : List Char) (h : '(' ∉ cs) :
    removeParenNoise key cs = cs := by
  unfold removeParenNoise
  cases hl : cs.length with
  | zero => rfl
  | succ n =>
    simp only [removeParenF, parenSplit_eq_none key cs h]

theorem removeBrackets_eq_self (cs : List Char) (h : '[' ∉ cs) :
    removeBrackets cs = cs := by
  unfold removeBrackets
  cases hl : cs.length with
  | zero => rfl
  | succ n =>
    simp only [removeBracketsF, bracketSplit_eq_none cs h]

theorem removePipeToEnd_eq_self (cs : List Char) (h : '|' ∉ cs) :
    removePipeToEnd cs = cs := by
  unfold removePipeToEnd
  rw [splitAtPipe_eq_none cs h]

theorem removeDblSlashToEnd_eq_self (cs : List Char) (h : '/' ∉ cs) :
    removeDblSlashToEnd cs = cs := by
  unfold removeDblSlashToEnd
  rw [splitAtDblSlash_eq_none cs h]

theorem sanitizeChars_eq_core (cs : List Char) (h : noiseTriggerFree cs) :
    sanitizeChars cs = coreNormalize cs := by
  obtain ⟨hp, hb, hpi, hs⟩ := h
  unfold sanitizeChars
  dsimp only
  rw [removeParenNoise_eq_self _ _ hp, removeParenNoise_eq_self _ _ hp,
    removeParenNoise_eq_self _ _ hp, removeParenNoise_eq_self _ _ hp,
    removeBrackets_eq_self _ hb, removePipeToEnd_eq_self _ hpi,
    removeDblSlashToEnd_eq_self _ hs]
  rfl

theorem noiseTriggerFree_coreNormalize (cs : List Char) (h : noiseTriggerFree cs) :
    noiseTriggerFree (coreNormalize cs) := by
  obtain ⟨h1, h2, h3, h4⟩ := h
  refine ⟨?_, ?_, ?_, ?_⟩ <;> intro hm
  · rcases mem_coreNormalize cs _ hm with he | hm2
    · exact absurd he (by decide)
    · exact h1 hm2
  · rcases mem_coreNormalize cs _ hm with he | hm2
    · exact absurd he (by decide)
    · exact h2 hm2
  · rcases mem_coreNormalize cs _ hm with he | hm2
    · exact absurd he (by decide)
    · exact h3 hm2
  · rcases mem_coreNormalize cs _ hm with he | hm2
    · exact absurd he (by decide)
    · exact h4 hm2

set_option maxHeartbeats 2000000 in
set_option maxHeartbeats 4000000 in
/-- C6 counterexample: `sanitize_filename` is not idempotent.  On
`"(Official/ Video)"` the character-removal stage deletes the slash and
creates the noise pattern `(Official Video)`, which only the second pass
removes: the first pass yields `"(Official Video)"`, the second the empty
string. -/
theorem claim_C6_counterexample :
    sanitize_filename "(Official/ Video)" = "(Official Video)"
    ∧ sanitize_filename (sanitize_filename "(Official/ Video)") = ""
    ∧ sanitize_filename (sanitize_filename "(Official/ Video)")
        ≠ sanitize_filename "(Official/ Video)" := by
  decide

/-- C6 amended: the sanitizer is idempotent on every input containing
none of the noise-trigger characters `(`, `[`, `|`, `/` — on those inputs
only the character-removal and whitespace-normalization stages act, and
they are idempotent; full idempotence fails (see the counterexample)
because removing an illegal character can create a new noise pattern. -/
theorem claim_C6 (s : String) (h : noiseTriggerFree s.data) :
    sanitize_filename (sanitize_filename s) = sanitize_filename s := by
  unfold sanitize_filename
  rw [show (String.mk (sanitizeChars s.data)).data = sanitizeChars s.data from rfl,
    sanitizeChars_eq_core _ h,
    sanitizeChars_eq_core _ (noiseTriggerFree_coreNormalize _ h),
    coreNormalize_idem]

/-- Witness for C6: a concrete trigger-free title is sanitized the same
way twice. -/
theorem claim_C6_witness :
    noiseTriggerFree ("My  Song Title ".data)
    ∧ sanitize_filename (sanitize_filename "My  Song Title ")
        = sanitize_filename "My  Song Title " :=
  ⟨by decide, claim_C6 "My  Song Title " (by decide)⟩

theorem tailOk_of_no_newline (b : List Char) (h : b.contains '\n' = false) :
    tailOk b = some [] := by
  unfold tailOk
  rw [h]
  rfl

theorem splitAtPipe_append (a b : List Char) (ha : '|' ∉ a)
    (hb : b.contains '\n' = false) :
    splitAtPipe (a ++ '|' :: b) = some (a, []) := by
  induction a with
  | nil =>
    simp only [List.nil_append, splitAtPipe]
    rw [tailOk_of_no_newline b hb]
    simp
  | cons c cs ih =>
    have hc : ¬(c = '|') := fun he => ha (he ▸ List.mem_cons_self c cs)
    have ha2 : '|' ∉ cs := fun hm => ha (List.mem_cons_of_mem c hm)
    simp only [List.cons_append, splitAtPipe, List.append_eq]
    rw [if_neg hc, ih ha2]
    rfl

theorem noDblSlash_tail (c : Char) (cs : List Char)
    (h : noDblSlash (c :: cs) = true) : noDblSlash cs = true := by
  cases cs with
  | nil => rfl
  | cons d ds =>
    simp only [noDblSlash, Bool.and_eq_true] at h
    exact h.2

theorem splitAtDblSlash_append_aux :
    ∀ (n : Nat) (a b : List Char), a.length ≤ n →
    noDblSlash (a ++ ['/']) = true → b.contains '\n' = false →
    splitAtDblSlash (a ++ '/' :: '/' :: b) = some (a, []) := by
  intro n
  induction n with
  | zero =>
    intro a b hl ha hb
    cases a with
    | nil =>
      simp only [List.nil_append, splitAtDblSlash]
      rw [tailOk_of_no_newline b hb]
      simp
    | cons c cs => simp at hl
  | succ n ihn =>
    intro a b hl ha hb
    cases a with
    | nil =>
      simp only [List.nil_append, splitAtDblSlash]
      rw [tailOk_of_no_newline b hb]
      simp
    | cons c cs =>
      have ha2 : noDblSlash (cs ++ ['/']) = true := by
        rw [List.cons_append] at ha
        exact noDblSlash_tail c _ ha
      by_cases hc : c = '/'
      · cases cs with
        | nil =>
          exfalso
          rw [hc] at ha
          simp [noDblSlash] at ha
        | cons d ds =>
          have hd : ¬(d = '/') := by
            intro hdd
            rw [hc, hdd] at ha
            simp [noDblSlash] at ha
          have ha3 : noDblSlash (ds ++ ['/']) = true := by
            rw [List.cons_append] at ha2
            exact noDblSlash_tail d _ ha2
          have hds : splitAtDblSlash (ds ++ '/' :: '/' :: b) = some (ds, []) := by
            apply ihn ds b ?_ ha3 hb
            simp only [List.length_cons] at hl
            omega
          subst hc
          simp only [List.cons_append, splitAtDblSlash, List.append_eq]
          simp [hd, hds]
      · have hcs : splitAtDblSlash (cs ++ '/' :: '/' :: b) = some (cs, []) := by
          apply ihn cs b ?_ ha2 hb
          simp only [List.length_cons] at hl
          omega
        simp only [List.cons_append, splitAtDblSlash, List.append_eq]
        simp [hc, hcs]

theorem splitAtDblSlash_append (a b : List Char) (ha : noDblSlash (a ++ ['/']) = true)
    (hb : b.contains '\n' = false) :
    splitAtDblSlash (a ++ '/' :: '/' :: b) = some (a, []) :=
  splitAtDblSlash_append_aux a.length a b (Nat.le_refl _) ha hb

theorem star_not_mem_sanitizeChars (cs : List Char) : '*' ∉ sanitizeChars cs := by
  unfold sanitizeChars pyStrip
  dsimp only
  intro hm
  have h1 := mem_dropTrailingWs _ _ hm
  have h2 := (List.dropWhile_suffix pyIsSpace).sublist.subset h1
  rcases collapseWs_sound _ _ h2 with h | h
  · exact absurd h (by decide)
  · have h3 := List.of_mem_filter h
    simp [badChar] at h3

set_option maxHeartbeats 4000000 in
/-- C7 counterexample: the stripper leaves a `#`-marked suffix in place
(the claim predicts `"Song"`), and `*` does not cut a suffix — it is
deleted as an individual character (the claim predicts `"a"`). -/
theorem claim_C7_counterexample :
    parse_youtube_title "Song #hashtag promo" = "Song #hashtag promo"
    ∧ parse_youtube_title "Song #hashtag promo" ≠ "Song"
    ∧ sanitize_filename "a *b c" = "a b c"
    ∧ sanitize_filename "a *b c" ≠ "a" := by
  decide

set_option maxHeartbeats 4000000 in
/-- C7 amended: the noise stripper cuts the suffix beginning at the first
`|` and at the first `//` (with the immediately preceding whitespace run);
`#` never triggers suffix removal, and `*` is removed character-wise by
the illegal-character filter rather than truncating the title. -/
theorem claim_C7 :
    (∀ a b : List Char, '|' ∉ a → b.contains '\n' = false →
        removePipeToEnd (a ++ '|' :: b) = dropTrailingWs a)
    ∧ (∀ a b : List Char, noDblSlash (a ++ ['/']) = true → b.contains '\n' = false →
        removeDblSlashToEnd (a ++ '/' :: '/' :: b) = dropTrailingWs a)
    ∧ parse_youtube_title "Song #hashtag promo" = "Song #hashtag promo"
    ∧ (∀ cs : List Char, '*' ∉ sanitizeChars cs)
    ∧ sanitize_filename "a *b c" = "a b c" := by
  refine ⟨?_, ?_, by decide, star_not_mem_sanitizeChars, by decide⟩
  · intro a b ha hb
    unfold removePipeToEnd
    rw [splitAtPipe_append a b ha hb]
    simp
  · intro a b ha hb
    unfold removeDblSlashToEnd
    rw [splitAtDblSlash_append a b ha hb]
    simp

/-- Witness for C7 at concrete strings: a pipe suffix and a
double-slash suffix are cut, and `*` never survives sanitization. -/
theorem claim_C7_witness :
    removePipeToEnd ("Song ".data ++ '|' :: " brand".data) = dropTrailingWs "Song ".data
    ∧ removeDblSlashToEnd ("x ".data ++ '/' :: '/' :: "yy".data) = dropTrailingWs "x ".data
    ∧ '*' ∉ sanitizeChars "a *b".data :=
  ⟨claim_C7.1 "Song ".data " brand".data (by decide) (by decide),
    claim_C7.2.1 "x ".data "yy".data (by decide) (by decide),
    claim_C7.2.2.2.1 "a *b".data⟩

end Mp3ify
